import Mathlib

/-!
A shallow embedding of the cleanup engine of the Go-Optimizer-Windows
repository (Go package `cleaner`): the error classifier, the byte formatter,
the result aggregator and the directory cleaner, together with proofs of the
specified properties.

The implementation of the `cleaner` package is not present under `src/`; only
its test file is (package `cleaner` tests in `src/unnamed/part_000`).  All
engine definitions below are therefore modelled from the specification
(spec.md §3, §4.1-§4.4), using the field and function names that the test
file pins down (`cleanDirectory`, `classifyError`, `FormatBytes`,
`CleanResult.merge`, `CleanError` with fields `Path`, `Type`, `Err`, and the
`ErrorPermissionDenied` .. `ErrorOther` constants).
-/

namespace Cleaner

/-- Modelled from the spec: the raw Go `error` values consumed by the missing
`classifyError`.  A raw error is observed through exactly three features the
spec names (§4.2): whether the OS reports a permission-denied condition
(the `os.ErrPermission` sentinel), whether it reports a does-not-exist
condition (the `os.ErrNotExist` sentinel), and its message text. -/
structure GoError where
  isPermission : Bool
  isNotExist : Bool
  msg : String
  deriving Repr, DecidableEq

/-- Modelled from the spec: the closed ErrorKind enumeration (§3), with the
Go constant names used by the tests. -/
inductive ErrorType where
  | ErrorPermissionDenied
  | ErrorNotFound
  | ErrorLocked
  | ErrorTimeout
  | ErrorOther
  deriving Repr, DecidableEq

/-- Modelled from the spec: one classified failure (§3): path, kind tag and
underlying raw error.  The Go field `Type` is a reserved word in Lean, so it
is rendered `errType`. -/
structure CleanError where
  Path : String
  errType : ErrorType
  Err : GoError
  deriving Repr, DecidableEq

/-- Modelled from the spec: the `Error()` rendering of a `CleanError`,
`"<path>: <underlying error message>"` (§3). -/
def CleanError.error (e : CleanError) : String :=
  e.Path ++ ": " ++ e.Err.msg

/-- Whether `p` is a leading segment of `s` (on character lists). -/
def listLeads : List Char → List Char → Bool
  | _, [] => true
  | [], _ :: _ => false
  | c :: s, p :: ps => c == p && listLeads s ps

/-- Whether the pattern occurs as a contiguous run somewhere in `s`. -/
def listContainsSub : List Char → List Char → Bool
  | [], pat => listLeads [] pat
  | c :: s, pat => listLeads (c :: s) pat || listContainsSub s pat

/-- Go `strings.Contains s pat`: case-sensitive substring occurrence test,
on the character sequences of the two strings. -/
def strContains (s pat : String) : Bool :=
  listContainsSub s.data pat.data

/-- Modelled from the spec: `classifyError` (§4.2), first match wins:
permission-denied sentinel, then does-not-exist sentinel, then the two locked
phrases, then the timeout phrase, then Other. -/
def classifyError (path : String) (err : GoError) : CleanError :=
  if err.isPermission then ⟨path, .ErrorPermissionDenied, err⟩
  else if err.isNotExist then ⟨path, .ErrorNotFound, err⟩
  else if strContains err.msg "used by another process"
      || strContains err.msg "sharing violation" then ⟨path, .ErrorLocked, err⟩
  else if strContains err.msg "timeout" then ⟨path, .ErrorTimeout, err⟩
  else ⟨path, .ErrorOther, err⟩

/-- Render a scaled byte count with exactly two fractional digits:
`h` is the value in hundredths of the unit `div`, rounded to nearest. -/
def twoFrac (bytes div : Nat) : String :=
  let h := (100 * bytes + div / 2) / div
  toString (h / 100) ++ "." ++ (if h % 100 < 10 then "0" else "") ++ toString (h % 100)

/-- The unit suffixes beyond plain bytes, in increasing order of magnitude. -/
def byteUnits : List String := ["KB", "MB", "GB", "TB", "PB", "EB"]

/-- Repeatedly multiply the divisor by 1024 until the scaled value is below
1024, then render with two fractional digits and the unit suffix (§4.1). -/
def formatScaled (bytes div : Nat) : List String → String
  | [] => toString bytes ++ " B"
  | u :: rest =>
    if bytes < div * 1024 then twoFrac bytes div ++ " " ++ u
    else formatScaled bytes (div * 1024) rest

/-- Modelled from the spec: `FormatBytes` (§4.1).  Input is a non-negative
byte count (negative input is declared out of contract by the spec, so the
domain is `Nat`): below 1024 the integer value with suffix `" B"`, otherwise
the largest unit such that the scaled value is below 1024, with exactly two
fractional digits. -/
def FormatBytes (bytes : Nat) : String :=
  if bytes < 1024 then toString bytes ++ " B"
  else formatScaled bytes 1024 byteUnits

/-- Modelled from the spec: the per-scope additive summary `CleanResult`
(§3), with the field names the tests pin down. -/
structure CleanResult where
  FilesDeleted : Nat
  SkippedFiles : Nat
  SpaceFreed : Nat
  LockedFiles : Nat
  PermissionFiles : Nat
  Errors : List CleanError
  deriving Repr, DecidableEq

/-- The empty result: all counters zero, no errors. -/
def CleanResult.empty : CleanResult := ⟨0, 0, 0, 0, 0, []⟩

/-- Modelled from the spec: the result aggregator `merge` (§4.4): add all
five numeric counters field-wise and concatenate the two Errors sequences.
The Go method mutates its receiver in place; its value semantics are this
pure function applied to the receiver. -/
def CleanResult.merge (r other : CleanResult) : CleanResult :=
  ⟨r.FilesDeleted + other.FilesDeleted,
   r.SkippedFiles + other.SkippedFiles,
   r.SpaceFreed + other.SpaceFreed,
   r.LockedFiles + other.LockedFiles,
   r.PermissionFiles + other.PermissionFiles,
   r.Errors ++ other.Errors⟩

/-- The mutable variables in scope during a call `a.merge(b)` of the in-place
Go method: the receiver and the argument. -/
structure MergeVars where
  receiver : CleanResult
  arg : CleanResult
  deriving Repr, DecidableEq

/-- One Go assignment `r.FilesDeleted += other.FilesDeleted` as a state
transformer on the call frame. -/
def mergeStepFilesDeleted (s : MergeVars) : MergeVars :=
  ⟨⟨s.receiver.FilesDeleted + s.arg.FilesDeleted, s.receiver.SkippedFiles,
    s.receiver.SpaceFreed, s.receiver.LockedFiles, s.receiver.PermissionFiles,
    s.receiver.Errors⟩, s.arg⟩

/-- One Go assignment `r.SkippedFiles += other.SkippedFiles`. -/
def mergeStepSkippedFiles (s : MergeVars) : MergeVars :=
  ⟨⟨s.receiver.FilesDeleted, s.receiver.SkippedFiles + s.arg.SkippedFiles,
    s.receiver.SpaceFreed, s.receiver.LockedFiles, s.receiver.PermissionFiles,
    s.receiver.Errors⟩, s.arg⟩

/-- One Go assignment `r.SpaceFreed += other.SpaceFreed`. -/
def mergeStepSpaceFreed (s : MergeVars) : MergeVars :=
  ⟨⟨s.receiver.FilesDeleted, s.receiver.SkippedFiles,
    s.receiver.SpaceFreed + s.arg.SpaceFreed, s.receiver.LockedFiles,
    s.receiver.PermissionFiles, s.receiver.Errors⟩, s.arg⟩

/-- One Go assignment `r.LockedFiles += other.LockedFiles`. -/
def mergeStepLockedFiles (s : MergeVars) : MergeVars :=
  ⟨⟨s.receiver.FilesDeleted, s.receiver.SkippedFiles, s.receiver.SpaceFreed,
    s.receiver.LockedFiles + s.arg.LockedFiles, s.receiver.PermissionFiles,
    s.receiver.Errors⟩, s.arg⟩

/-- One Go assignment `r.PermissionFiles += other.PermissionFiles`. -/
def mergeStepPermissionFiles (s : MergeVars) : MergeVars :=
  ⟨⟨s.receiver.FilesDeleted, s.receiver.SkippedFiles, s.receiver.SpaceFreed,
    s.receiver.LockedFiles, s.receiver.PermissionFiles + s.arg.PermissionFiles,
    s.receiver.Errors⟩, s.arg⟩

/-- One Go assignment `r.Errors = append(r.Errors, other.Errors...)`. -/
def mergeStepErrors (s : MergeVars) : MergeVars :=
  ⟨⟨s.receiver.FilesDeleted, s.receiver.SkippedFiles, s.receiver.SpaceFreed,
    s.receiver.LockedFiles, s.receiver.PermissionFiles,
    s.receiver.Errors ++ s.arg.Errors⟩, s.arg⟩

/-- The body of the in-place Go method `a.merge(b)`: the six assignments run
in order on the call frame `⟨a, b⟩`. -/
def mergeExec (s : MergeVars) : MergeVars :=
  mergeStepErrors (mergeStepPermissionFiles (mergeStepLockedFiles
    (mergeStepSpaceFreed (mergeStepSkippedFiles (mergeStepFilesDeleted s)))))

mutual
/-- Modelled from the spec: one entry of a directory tree as the cleaner
observes it (§4.3).  A regular file carries its name, its size in bytes, its
age (time since last modification, as a non-negative duration) and the
outcome the OS would give to an attempt to delete it (`none`: deletion
succeeds; `some e`: deletion fails with raw error `e`).  A directory carries
its name, the outcome of attempting to descend into it (`some e`: the
traversal failure the walk reports for it) and its entries. -/
inductive FS where
  | file (name : String) (size : Nat) (age : Nat) (removeErr : Option GoError) : FS
  | dir (name : String) (readErr : Option GoError) (entries : FSList) : FS

/-- A sequence of sibling entries of a directory. -/
inductive FSList where
  | nil : FSList
  | cons (head : FS) (tail : FSList) : FSList
end

/-- Modelled from the spec: the age filter (§4.3): a file is eligible for
removal when `maxAge == 0` (no age filter) or its time since last
modification is at least `maxAge`. -/
def eligible (maxAge age : Nat) : Bool :=
  maxAge == 0 || maxAge ≤ age

/-- Modelled from the spec: the accounting for one failed deletion (§4.3):
classify, increment the matching counter (LockedFiles for Locked,
PermissionFiles for PermissionDenied, SkippedFiles for the rest), and append
the classified error to Errors. -/
def fileFailureResult (ce : CleanError) : CleanResult :=
  match ce.errType with
  | .ErrorLocked => ⟨0, 0, 0, 1, 0, [ce]⟩
  | .ErrorPermissionDenied => ⟨0, 0, 0, 0, 1, [ce]⟩
  | _ => ⟨0, 1, 0, 0, 0, [ce]⟩

mutual
/-- Modelled from the spec: the walk of one entry (§4.3).  Returns the
contribution to the `CleanResult` and what remains of the entry on disk
(`none` when the entry was deleted).  A directory is never counted or
deleted; an unreadable directory is recorded like a file-level failure
(classified, appended to Errors, contributing to SkippedFiles) and its
subtree is not entered; an ineligible file is left untouched and contributes
nothing; an eligible file is counted as deleted in dry-run mode (and kept on
disk), deleted for real otherwise, with a failed deletion classified and
counted. -/
def cleanFS (maxAge : Nat) (dryRun : Bool) (parent : String) : FS → CleanResult × Option FS
  | .file name size age removeErr =>
    if eligible maxAge age then
      if dryRun then (⟨1, 0, size, 0, 0, []⟩, some (.file name size age removeErr))
      else
        match removeErr with
        | none => (⟨1, 0, size, 0, 0, []⟩, none)
        | some e =>
          (fileFailureResult (classifyError (parent ++ "/" ++ name) e),
           some (.file name size age removeErr))
    else (CleanResult.empty, some (.file name size age removeErr))
  | .dir name readErr entries =>
    match readErr with
    | some e =>
      (⟨0, 1, 0, 0, 0, [classifyError (parent ++ "/" ++ name) e]⟩,
       some (.dir name readErr entries))
    | none =>
      let p := cleanFSList maxAge dryRun (parent ++ "/" ++ name) entries
      (p.1, some (.dir name none p.2))

/-- The walk of a sequence of sibling entries, folding the per-entry results
with `CleanResult.merge` and keeping the entries that remain on disk. -/
def cleanFSList (maxAge : Nat) (dryRun : Bool) (parent : String) : FSList → CleanResult × FSList
  | .nil => (CleanResult.empty, .nil)
  | .cons h t =>
    let ph := cleanFS maxAge dryRun parent h
    let pt := cleanFSList maxAge dryRun parent t
    (ph.1.merge pt.1,
     match ph.2 with
     | some h2 => .cons h2 pt.2
     | none => pt.2)
end

/-- Modelled from the spec: `cleanDirectory(root, maxAge, dryRun)` (§4.3).
The root argument is `none` when the root directory does not exist or is
unreadable at the top level, in which case the result is empty; otherwise it
is the sequence of entries of the root directory, which are walked
recursively.  Returns the result together with the surviving tree. -/
def cleanDirectory (root : String) (tree : Option FSList) (maxAge : Nat)
    (dryRun : Bool) : CleanResult × Option FSList :=
  match tree with
  | none => (CleanResult.empty, none)
  | some entries =>
    let p := cleanFSList maxAge dryRun root entries
    (p.1, some p.2)

mutual
/-- Number of regular files in an entry (files in arbitrarily nested
subdirectories included; directories themselves are not counted). -/
def FS.fileCount : FS → Nat
  | .file _ _ _ _ => 1
  | .dir _ _ es => FSList.fileCount es

/-- Number of regular files under a sequence of entries. -/
def FSList.fileCount : FSList → Nat
  | .nil => 0
  | .cons h t => FS.fileCount h + FSList.fileCount t
end

mutual
/-- Number of directories in an entry (the entry itself included when it is
a directory). -/
def FS.dirCount : FS → Nat
  | .file _ _ _ _ => 0
  | .dir _ _ es => 1 + FSList.dirCount es

/-- Number of directories under a sequence of entries. -/
def FSList.dirCount : FSList → Nat
  | .nil => 0
  | .cons h t => FS.dirCount h + FSList.dirCount t
end

mutual
/-- Total size in bytes of the regular files in an entry. -/
def FS.totalSize : FS → Nat
  | .file _ size _ _ => size
  | .dir _ _ es => FSList.totalSize es

/-- Total size in bytes of the regular files under a sequence of entries. -/
def FSList.totalSize : FSList → Nat
  | .nil => 0
  | .cons h t => FS.totalSize h + FSList.totalSize t
end

mutual
/-- A tree of freshly written, deletable content: every file has nonzero
size and would delete without error, and every directory is readable.  This
is the shape the tests build with `createTempFiles` (files with the bytes of
`"test data content"` written to them, in readable temp directories). -/
def FS.allFresh : FS → Bool
  | .file _ size _ removeErr => decide (1 ≤ size) && removeErr.isNone
  | .dir _ readErr es => readErr.isNone && FSList.allFresh es

/-- `FS.allFresh` over a sequence of entries. -/
def FSList.allFresh : FSList → Bool
  | .nil => true
  | .cons h t => FS.allFresh h && FSList.allFresh t
end

mutual
/-- Every eligible file that the walk visits in this entry would delete
without error: an ineligible file is unconstrained (the real run never
attempts it), and so is the whole subtree of an unreadable directory (the
walk does not enter it in either mode). -/
def FS.eligDeletable (maxAge : Nat) : FS → Bool
  | .file _ _ age removeErr => !eligible maxAge age || removeErr.isNone
  | .dir _ none es => FSList.eligDeletable maxAge es
  | .dir _ (some _) _ => true

/-- `FS.eligDeletable` over a sequence of entries. -/
def FSList.eligDeletable (maxAge : Nat) : FSList → Bool
  | .nil => true
  | .cons h t => FS.eligDeletable maxAge h && FSList.eligDeletable maxAge t
end

/-- Number of regular files in an optional surviving entry. -/
def optFileCount : Option FS → Nat
  | none => 0
  | some t => FS.fileCount t

/-- Number of directories in an optional surviving entry. -/
def optDirCount : Option FS → Nat
  | none => 0
  | some t => FS.dirCount t

mutual
theorem cleanFS_fresh (parent : String) (t : FS) (h : FS.allFresh t = true) :
    (cleanFS 0 false parent t).1 = ⟨FS.fileCount t, 0, FS.totalSize t, 0, 0, []⟩ ∧
    optFileCount (cleanFS 0 false parent t).2 = 0 ∧
    optDirCount (cleanFS 0 false parent t).2 = FS.dirCount t := by
  cases t with
  | file n s a r =>
    rw [FS.allFresh, Bool.and_eq_true, decide_eq_true_iff, Option.isNone_iff_eq_none] at h
    obtain ⟨hs, hr⟩ := h
    subst hr
    simp [cleanFS, eligible, FS.fileCount, FS.totalSize, FS.dirCount, optFileCount, optDirCount]
  | dir n re es =>
    rw [FS.allFresh, Bool.and_eq_true, Option.isNone_iff_eq_none] at h
    obtain ⟨hre, hes⟩ := h
    subst hre
    have ih := cleanFSList_fresh (parent ++ "/" ++ n) es hes
    simp only [cleanFS, FS.fileCount, FS.totalSize, FS.dirCount, optFileCount, optDirCount]
    exact ⟨ih.1, ih.2.1, by rw [ih.2.2]⟩

theorem cleanFSList_fresh (parent : String) (l : FSList) (h : FSList.allFresh l = true) :
    (cleanFSList 0 false parent l).1 = ⟨FSList.fileCount l, 0, FSList.totalSize l, 0, 0, []⟩ ∧
    FSList.fileCount (cleanFSList 0 false parent l).2 = 0 ∧
    FSList.dirCount (cleanFSList 0 false parent l).2 = FSList.dirCount l := by
  cases l with
  | nil =>
    simp [cleanFSList, FSList.fileCount, FSList.totalSize, FSList.dirCount, CleanResult.empty]
  | cons hd tl =>
    rw [FSList.allFresh, Bool.and_eq_true] at h
    obtain ⟨h1, h2⟩ := h
    have ih1 := cleanFS_fresh parent hd h1
    have ih2 := cleanFSList_fresh parent tl h2
    simp only [cleanFSList, FSList.fileCount, FSList.totalSize, FSList.dirCount]
    refine ⟨by rw [ih1.1, ih2.1]; simp [CleanResult.merge], ?_, ?_⟩
    · rcases hsnd : (cleanFS 0 false parent hd).2 with _ | h2d
      · simpa [hsnd, FSList.fileCount] using ih2.2.1
      · have := ih1.2.1
        rw [hsnd] at this
        simp only [optFileCount] at this
        simp [hsnd, FSList.fileCount, this, ih2.2.1]
    · rcases hsnd : (cleanFS 0 false parent hd).2 with _ | h2d
      · have := ih1.2.2
        rw [hsnd] at this
        simp only [optDirCount] at this
        simp [hsnd, FSList.dirCount, ← this, ih2.2.2]
      · have := ih1.2.2
        rw [hsnd] at this
        simp only [optDirCount] at this
        simp [hsnd, FSList.dirCount, this, ih2.2.2]
end

mutual
theorem fs_fileCount_le_totalSize (t : FS) (h : FS.allFresh t = true) :
    FS.fileCount t ≤ FS.totalSize t := by
  cases t with
  | file n s a r =>
    rw [FS.allFresh, Bool.and_eq_true, decide_eq_true_iff] at h
    simpa [FS.fileCount, FS.totalSize] using h.1
  | dir n re es =>
    rw [FS.allFresh, Bool.and_eq_true] at h
    simpa [FS.fileCount, FS.totalSize] using fsList_fileCount_le_totalSize es h.2

theorem fsList_fileCount_le_totalSize (l : FSList) (h : FSList.allFresh l = true) :
    FSList.fileCount l ≤ FSList.totalSize l := by
  cases l with
  | nil => simp [FSList.fileCount, FSList.totalSize]
  | cons hd tl =>
    rw [FSList.allFresh, Bool.and_eq_true] at h
    have := fs_fileCount_le_totalSize hd h.1
    have := fsList_fileCount_le_totalSize tl h.2
    simp only [FSList.fileCount, FSList.totalSize]
    omega
end

mutual
theorem cleanFS_dry_preserves (maxAge : Nat) (parent : String) (t : FS) :
    (cleanFS maxAge true parent t).2 = some t := by
  cases t with
  | file n s a r =>
    cases helig : eligible maxAge a <;> simp [cleanFS, helig]
  | dir n re es =>
    cases re with
    | none => simp [cleanFS, cleanFSList_dry_preserves maxAge (parent ++ "/" ++ n) es]
    | some e => simp [cleanFS]

theorem cleanFSList_dry_preserves (maxAge : Nat) (parent : String) (l : FSList) :
    (cleanFSList maxAge true parent l).2 = l := by
  cases l with
  | nil => simp [cleanFSList]
  | cons hd tl =>
    have ih1 := cleanFS_dry_preserves maxAge parent hd
    have ih2 := cleanFSList_dry_preserves maxAge parent tl
    simp [cleanFSList, ih1, ih2]
end

mutual
theorem cleanFS_dry_counters (maxAge : Nat) (parent : String) (t : FS)
    (h : FS.eligDeletable maxAge t = true) :
    (cleanFS maxAge true parent t).1 = (cleanFS maxAge false parent t).1 := by
  cases t with
  | file n s a r =>
    rw [FS.eligDeletable] at h
    cases helig : eligible maxAge a with
    | false => simp [cleanFS, helig]
    | true =>
      rw [helig] at h
      simp only [Bool.not_true, Bool.false_or, Option.isNone_iff_eq_none] at h
      subst h
      simp [cleanFS, helig]
  | dir n re es =>
    cases re with
    | some e => rfl
    | none =>
      rw [FS.eligDeletable] at h
      simp [cleanFS, cleanFSList_dry_counters maxAge (parent ++ "/" ++ n) es h]

theorem cleanFSList_dry_counters (maxAge : Nat) (parent : String) (l : FSList)
    (h : FSList.eligDeletable maxAge l = true) :
    (cleanFSList maxAge true parent l).1 = (cleanFSList maxAge false parent l).1 := by
  cases l with
  | nil => simp [cleanFSList]
  | cons hd tl =>
    rw [FSList.eligDeletable, Bool.and_eq_true] at h
    have ih1 := cleanFS_dry_counters maxAge parent hd h.1
    have ih2 := cleanFSList_dry_counters maxAge parent tl h.2
    simp [cleanFSList, ih1, ih2]
end

/-- C1: for every directory root containing N freshly written regular files
(files in arbitrarily nested subdirectories included, every file nonempty and
deletable, as the tests build them), clean with maxAge 0 and dryRun false
deletes all N files from disk and returns FilesDeleted = N with
SpaceFreed > 0 and no errors; directories are never counted or deleted (the
surviving tree has zero files and exactly the directories of the input). -/
theorem cleanDirectory_deletesAllFresh (root : String) (es : FSList)
    (hfresh : FSList.allFresh es = true) (hN : 1 ≤ FSList.fileCount es) :
    (cleanDirectory root (some es) 0 false).1.FilesDeleted = FSList.fileCount es ∧
    0 < (cleanDirectory root (some es) 0 false).1.SpaceFreed ∧
    (cleanDirectory root (some es) 0 false).1.Errors = [] ∧
    (cleanDirectory root (some es) 0 false).2 = some (cleanFSList 0 false root es).2 ∧
    FSList.fileCount (cleanFSList 0 false root es).2 = 0 ∧
    FSList.dirCount (cleanFSList 0 false root es).2 = FSList.dirCount es := by
  have hmain := cleanFSList_fresh root es hfresh
  have hsize := fsList_fileCount_le_totalSize es hfresh
  simp only [cleanDirectory]
  refine ⟨by rw [hmain.1], ?_, by rw [hmain.1], by trivial, hmain.2.1, hmain.2.2⟩
  rw [hmain.1]
  dsimp only
  omega

/-- The three fresh files of the subdirectory test: two in a subdirectory,
one at top level, each holding the 17 bytes of the test data. -/
def sampleFreshTree : FSList :=
  .cons (.dir "subdir" none (.cons (.file "a" 17 0 none)
    (.cons (.file "b" 17 0 none) .nil))) (.cons (.file "c" 17 0 none) .nil)

/-- Witness for C1 at a concrete three-file tree with one subdirectory. -/
theorem cleanDirectory_deletesAllFresh_witness :
    FSList.allFresh sampleFreshTree = true ∧
    1 ≤ FSList.fileCount sampleFreshTree ∧
    ((cleanDirectory "/t" (some sampleFreshTree) 0 false).1.FilesDeleted =
        FSList.fileCount sampleFreshTree ∧
      0 < (cleanDirectory "/t" (some sampleFreshTree) 0 false).1.SpaceFreed ∧
      (cleanDirectory "/t" (some sampleFreshTree) 0 false).1.Errors = [] ∧
      (cleanDirectory "/t" (some sampleFreshTree) 0 false).2 =
        some (cleanFSList 0 false "/t" sampleFreshTree).2 ∧
      FSList.fileCount (cleanFSList 0 false "/t" sampleFreshTree).2 = 0 ∧
      FSList.dirCount (cleanFSList 0 false "/t" sampleFreshTree).2 =
        FSList.dirCount sampleFreshTree) :=
  ⟨rfl, by decide, cleanDirectory_deletesAllFresh "/t" sampleFreshTree rfl (by decide)⟩

/-- C2: a visited file is eligible for removal exactly when maxAge is zero or
its time since last modification is at least maxAge; an ineligible file is
left untouched on disk and contributes to no counter and to no Errors
entry. -/
theorem cleanFS_ageFilter (maxAge age size : Nat) (name parent : String)
    (removeErr : Option GoError) (dryRun : Bool) :
    (eligible maxAge age = true ↔ (maxAge = 0 ∨ maxAge ≤ age)) ∧
    (eligible maxAge age = false →
      cleanFS maxAge dryRun parent (.file name size age removeErr) =
        (CleanResult.empty, some (.file name size age removeErr))) := by
  constructor
  · simp [eligible]
  · intro h
    simp [cleanFS, h]

/-- Witness for C2: a fresh file (age 5) against a large maxAge (1000) is
ineligible and untouched. -/
theorem cleanFS_ageFilter_witness :
    ((eligible 1000 5 = true ↔ (1000 = 0 ∨ 1000 ≤ 5)) ∧
      (eligible 1000 5 = false →
        cleanFS 1000 false "/t" (.file "a" 17 5 none) =
          (CleanResult.empty, some (.file "a" 17 5 none)))) ∧
    eligible 1000 5 = false ∧
    cleanFS 1000 false "/t" (.file "a" 17 5 none) =
      (CleanResult.empty, some (.file "a" 17 5 none)) :=
  have h := cleanFS_ageFilter 1000 5 17 "a" "/t" none false
  ⟨h, rfl, h.2 rfl⟩

/-- Counterexample to C3 as stated: on a root holding one eligible file whose
deletion fails with a locked-file error, the dry run reports FilesDeleted = 1
and SpaceFreed = 5, while the real run on the same files reports
FilesDeleted = 0 and SpaceFreed = 0 — so dry-run accounting does not always
match what the real run would report. -/
theorem cleanDirectory_dryRun_counterexample :
    (cleanDirectory "/t"
      (some (.cons (.file "a" 5 0 (some ⟨false, false, "used by another process"⟩)) .nil))
      0 true).1.FilesDeleted = 1 ∧
    (cleanDirectory "/t"
      (some (.cons (.file "a" 5 0 (some ⟨false, false, "used by another process"⟩)) .nil))
      0 false).1.FilesDeleted = 0 ∧
    (cleanDirectory "/t"
      (some (.cons (.file "a" 5 0 (some ⟨false, false, "used by another process"⟩)) .nil))
      0 true).1.SpaceFreed = 5 ∧
    (cleanDirectory "/t"
      (some (.cons (.file "a" 5 0 (some ⟨false, false, "used by another process"⟩)) .nil))
      0 false).1.SpaceFreed = 0 :=
  ⟨rfl, rfl, rfl, rfl⟩

/-- C3 amended: a dry run never deletes or otherwise mutates any file on
disk (the surviving tree is exactly the input tree), and provided every
deletion in the corresponding real run would succeed, the dry run reports
the same FilesDeleted count and the same SpaceFreed total as the real
run. -/
theorem cleanDirectory_dryRun_amended (root : String) (es : FSList) (maxAge : Nat) :
    (cleanDirectory root (some es) maxAge true).2 = some es ∧
    (FSList.eligDeletable maxAge es = true →
      (cleanDirectory root (some es) maxAge true).1.FilesDeleted =
        (cleanDirectory root (some es) maxAge false).1.FilesDeleted ∧
      (cleanDirectory root (some es) maxAge true).1.SpaceFreed =
        (cleanDirectory root (some es) maxAge false).1.SpaceFreed) := by
  constructor
  · simp [cleanDirectory, cleanFSList_dry_preserves maxAge root es]
  · intro h
    have hc := cleanFSList_dry_counters maxAge root es h
    simp [cleanDirectory, hc]

/-- The tree of the C3 witness: one eligible file (age 2000 against maxAge
1000) that deletes without error, next to one ineligible file (age 5) whose
deletion would fail with a locked-file error.  Every eligible file deletes
successfully, although not every file would. -/
def gapTree : FSList :=
  .cons (.file "old" 17 2000 none)
    (.cons (.file "new" 17 5 (some ⟨false, false, "used by another process"⟩)) .nil)

/-- Witness for C3 amended: on gapTree with maxAge 1000 the proviso holds
(the only eligible file deletes fine, the failing file is ineligible), and
the dry run matches the real run while mutating nothing. -/
theorem cleanDirectory_dryRun_amended_witness :
    ((cleanDirectory "/t" (some gapTree) 1000 true).2 = some gapTree ∧
      (FSList.eligDeletable 1000 gapTree = true →
        (cleanDirectory "/t" (some gapTree) 1000 true).1.FilesDeleted =
          (cleanDirectory "/t" (some gapTree) 1000 false).1.FilesDeleted ∧
        (cleanDirectory "/t" (some gapTree) 1000 true).1.SpaceFreed =
          (cleanDirectory "/t" (some gapTree) 1000 false).1.SpaceFreed)) ∧
    FSList.eligDeletable 1000 gapTree = true ∧
    (cleanDirectory "/t" (some gapTree) 1000 true).1.FilesDeleted =
      (cleanDirectory "/t" (some gapTree) 1000 false).1.FilesDeleted ∧
    (cleanDirectory "/t" (some gapTree) 1000 true).1.SpaceFreed =
      (cleanDirectory "/t" (some gapTree) 1000 false).1.SpaceFreed :=
  have h := cleanDirectory_dryRun_amended "/t" gapTree 1000
  ⟨h, rfl, h.2 rfl⟩

/-- C4: merge adds all five numeric counters field-wise and concatenates the
Errors sequences; it is associative and commutative on the numeric fields,
and the merged Errors length is the sum of the two lengths. -/
theorem merge_algebra (A B C : CleanResult) :
    ((A.merge B).FilesDeleted = A.FilesDeleted + B.FilesDeleted ∧
      (A.merge B).SkippedFiles = A.SkippedFiles + B.SkippedFiles ∧
      (A.merge B).SpaceFreed = A.SpaceFreed + B.SpaceFreed ∧
      (A.merge B).LockedFiles = A.LockedFiles + B.LockedFiles ∧
      (A.merge B).PermissionFiles = A.PermissionFiles + B.PermissionFiles ∧
      (A.merge B).Errors = A.Errors ++ B.Errors) ∧
    ((A.merge B).merge C).FilesDeleted = (A.merge (B.merge C)).FilesDeleted ∧
    ((A.merge B).merge C).SkippedFiles = (A.merge (B.merge C)).SkippedFiles ∧
    ((A.merge B).merge C).SpaceFreed = (A.merge (B.merge C)).SpaceFreed ∧
    ((A.merge B).merge C).LockedFiles = (A.merge (B.merge C)).LockedFiles ∧
    ((A.merge B).merge C).PermissionFiles = (A.merge (B.merge C)).PermissionFiles ∧
    (A.merge B).FilesDeleted = (B.merge A).FilesDeleted ∧
    (A.merge B).SkippedFiles = (B.merge A).SkippedFiles ∧
    (A.merge B).SpaceFreed = (B.merge A).SpaceFreed ∧
    (A.merge B).LockedFiles = (B.merge A).LockedFiles ∧
    (A.merge B).PermissionFiles = (B.merge A).PermissionFiles ∧
    (A.merge B).Errors.length = A.Errors.length + B.Errors.length := by
  refine ⟨⟨rfl, rfl, rfl, rfl, rfl, rfl⟩, ?_⟩
  simp only [CleanResult.merge, List.length_append]
  repeat' apply And.intro
  all_goals first
  | omega
  | trivial

/-- C5: the classifier keeps the path and the raw error, and assigns the
kind by a fixed first-match-wins chain: OS permission-denied condition, then
OS does-not-exist condition, then the two case-sensitive locked phrases,
then the timeout phrase, then Other.  Each kind is characterised exactly
(the iffs record that an earlier rule preempts every later one).  The
classifier is a total Lean function of its two arguments, hence
deterministic, pure and never failing. -/
theorem classifyError_spec (p : String) (e : GoError) :
    (classifyError p e).Path = p ∧
    (classifyError p e).Err = e ∧
    ((classifyError p e).errType = .ErrorPermissionDenied ↔ e.isPermission = true) ∧
    ((classifyError p e).errType = .ErrorNotFound ↔
      (e.isPermission = false ∧ e.isNotExist = true)) ∧
    ((classifyError p e).errType = .ErrorLocked ↔
      (e.isPermission = false ∧ e.isNotExist = false ∧
        (strContains e.msg "used by another process" = true ∨
          strContains e.msg "sharing violation" = true))) ∧
    ((classifyError p e).errType = .ErrorTimeout ↔
      (e.isPermission = false ∧ e.isNotExist = false ∧
        strContains e.msg "used by another process" = false ∧
        strContains e.msg "sharing violation" = false ∧
        strContains e.msg "timeout" = true)) ∧
    ((classifyError p e).errType = .ErrorOther ↔
      (e.isPermission = false ∧ e.isNotExist = false ∧
        strContains e.msg "used by another process" = false ∧
        strContains e.msg "sharing violation" = false ∧
        strContains e.msg "timeout" = false)) := by
  cases hp : e.isPermission <;> cases hn : e.isNotExist <;>
    cases h1 : strContains e.msg "used by another process" <;>
    cases h2 : strContains e.msg "sharing violation" <;>
    cases h3 : strContains e.msg "timeout" <;>
    simp [classifyError, hp, hn, h1, h2, h3]

/-- C6: cleaning a root that does not exist (or is unreadable at the top
level) yields all-zero counters and an empty Errors sequence, for every
maxAge and dry-run flag. -/
theorem cleanDirectory_missingRoot (root : String) (maxAge : Nat) (dryRun : Bool) :
    (cleanDirectory root none maxAge dryRun).1.FilesDeleted = 0 ∧
    (cleanDirectory root none maxAge dryRun).1.SkippedFiles = 0 ∧
    (cleanDirectory root none maxAge dryRun).1.SpaceFreed = 0 ∧
    (cleanDirectory root none maxAge dryRun).1.LockedFiles = 0 ∧
    (cleanDirectory root none maxAge dryRun).1.PermissionFiles = 0 ∧
    (cleanDirectory root none maxAge dryRun).1.Errors = [] := by
  simp [cleanDirectory, CleanResult.empty]

/-- C7: an eligible file whose real deletion fails produces exactly one
Errors entry (the classified error) and increments exactly one counter,
chosen by the classified kind: LockedFiles for Locked, PermissionFiles for
PermissionDenied, SkippedFiles for Timeout, NotFound and Other; it is not
counted as deleted, frees no space, and stays on disk.  The cleaner is a
total Lean function, so the failure is captured in the result rather than
raised. -/
theorem cleanFS_failureAccounting (parent name : String) (size age maxAge : Nat)
    (e : GoError) (helig : eligible maxAge age = true) :
    (cleanFS maxAge false parent (.file name size age (some e))).1.Errors =
      [classifyError (parent ++ "/" ++ name) e] ∧
    (cleanFS maxAge false parent (.file name size age (some e))).1.FilesDeleted = 0 ∧
    (cleanFS maxAge false parent (.file name size age (some e))).1.SpaceFreed = 0 ∧
    (cleanFS maxAge false parent (.file name size age (some e))).1.LockedFiles =
      (if (classifyError (parent ++ "/" ++ name) e).errType = .ErrorLocked then 1 else 0) ∧
    (cleanFS maxAge false parent (.file name size age (some e))).1.PermissionFiles =
      (if (classifyError (parent ++ "/" ++ name) e).errType = .ErrorPermissionDenied
        then 1 else 0) ∧
    (cleanFS maxAge false parent (.file name size age (some e))).1.SkippedFiles =
      (if ((classifyError (parent ++ "/" ++ name) e).errType = .ErrorTimeout ∨
            (classifyError (parent ++ "/" ++ name) e).errType = .ErrorNotFound ∨
            (classifyError (parent ++ "/" ++ name) e).errType = .ErrorOther)
        then 1 else 0) ∧
    (cleanFS maxAge false parent (.file name size age (some e))).1.LockedFiles +
      (cleanFS maxAge false parent (.file name size age (some e))).1.PermissionFiles +
      (cleanFS maxAge false parent (.file name size age (some e))).1.SkippedFiles = 1 ∧
    (cleanFS maxAge false parent (.file name size age (some e))).2 =
      some (.file name size age (some e)) := by
  have hcf : cleanFS maxAge false parent (.file name size age (some e)) =
      (fileFailureResult (classifyError (parent ++ "/" ++ name) e),
        some (.file name size age (some e))) := by
    simp [cleanFS, helig]
  rw [hcf]
  rcases hk : (classifyError (parent ++ "/" ++ name) e).errType <;>
    simp [fileFailureResult, hk]

/-- Witness for C7 at a concrete locked file: maxAge 0 makes the file
eligible, and the locked-phrase error increments LockedFiles alone. -/
theorem cleanFS_failureAccounting_witness :
    eligible 0 0 = true ∧
    ((cleanFS 0 false "/t" (.file "a" 5 0
        (some ⟨false, false, "used by another process"⟩))).1.Errors =
      [classifyError ("/t" ++ "/" ++ "a") ⟨false, false, "used by another process"⟩] ∧
    (cleanFS 0 false "/t" (.file "a" 5 0
        (some ⟨false, false, "used by another process"⟩))).1.FilesDeleted = 0 ∧
    (cleanFS 0 false "/t" (.file "a" 5 0
        (some ⟨false, false, "used by another process"⟩))).1.SpaceFreed = 0 ∧
    (cleanFS 0 false "/t" (.file "a" 5 0
        (some ⟨false, false, "used by another process"⟩))).1.LockedFiles =
      (if (classifyError ("/t" ++ "/" ++ "a")
          ⟨false, false, "used by another process"⟩).errType = .ErrorLocked
        then 1 else 0) ∧
    (cleanFS 0 false "/t" (.file "a" 5 0
        (some ⟨false, false, "used by another process"⟩))).1.PermissionFiles =
      (if (classifyError ("/t" ++ "/" ++ "a")
          ⟨false, false, "used by another process"⟩).errType = .ErrorPermissionDenied
        then 1 else 0) ∧
    (cleanFS 0 false "/t" (.file "a" 5 0
        (some ⟨false, false, "used by another process"⟩))).1.SkippedFiles =
      (if ((classifyError ("/t" ++ "/" ++ "a")
              ⟨false, false, "used by another process"⟩).errType = .ErrorTimeout ∨
            (classifyError ("/t" ++ "/" ++ "a")
              ⟨false, false, "used by another process"⟩).errType = .ErrorNotFound ∨
            (classifyError ("/t" ++ "/" ++ "a")
              ⟨false, false, "used by another process"⟩).errType = .ErrorOther)
        then 1 else 0) ∧
    (cleanFS 0 false "/t" (.file "a" 5 0
        (some ⟨false, false, "used by another process"⟩))).1.LockedFiles +
      (cleanFS 0 false "/t" (.file "a" 5 0
        (some ⟨false, false, "used by another process"⟩))).1.PermissionFiles +
      (cleanFS 0 false "/t" (.file "a" 5 0
        (some ⟨false, false, "used by another process"⟩))).1.SkippedFiles = 1 ∧
    (cleanFS 0 false "/t" (.file "a" 5 0
        (some ⟨false, false, "used by another process"⟩))).2 =
      some (.file "a" 5 0 (some ⟨false, false, "used by another process"⟩))) :=
  ⟨rfl, cleanFS_failureAccounting "/t" "a" 5 0 0
    ⟨false, false, "used by another process"⟩ rfl⟩

/-- The unit suffix for the e-th power of 1024 (e between 1 and 6). -/
def unitSuffix (e : Nat) : String :=
  match e with
  | 1 => "KB"
  | 2 => "MB"
  | 3 => "GB"
  | 4 => "TB"
  | 5 => "PB"
  | _ => "EB"

/-- C8: the byte formatter renders a value below 1024 as the integer with
suffix " B", and otherwise scales by the largest unit power of 1024 keeping
the scaled value below 1024, rendered with exactly two fractional digits and
the unit suffix; the six boundary examples evaluate as specified. -/
theorem FormatBytes_spec :
    (FormatBytes 0 = "0 B" ∧ FormatBytes 512 = "512 B" ∧
      FormatBytes 1024 = "1.00 KB" ∧ FormatBytes 1536 = "1.50 KB" ∧
      FormatBytes 1048576 = "1.00 MB" ∧ FormatBytes 1073741824 = "1.00 GB") ∧
    (∀ b : Nat, b < 1024 → FormatBytes b = toString b ++ " B") ∧
    (∀ b e : Nat, 1 ≤ e → e ≤ 6 → 1024 ^ e ≤ b → b < 1024 ^ (e + 1) →
      FormatBytes b = twoFrac b (1024 ^ e) ++ " " ++ unitSuffix e) := by
  refine ⟨⟨rfl, rfl, rfl, rfl, rfl, rfl⟩, ?_, ?_⟩
  · intro b hb
    simp [FormatBytes, hb]
  · intro b e h1 h6 hlo hhi
    interval_cases e <;>
      simp only [FormatBytes, formatScaled, byteUnits, unitSuffix] <;>
      norm_num at hlo hhi ⊢ <;>
      split_ifs <;>
      first
      | rfl
      | omega

/-- Witness for C8: both quantified parts applied at concrete inputs, with
the hypotheses discharged there. -/
theorem FormatBytes_spec_witness :
    (512 < 1024 ∧ FormatBytes 512 = toString 512 ++ " B") ∧
    (1 ≤ 2 ∧ 2 ≤ 6 ∧ 1024 ^ 2 ≤ 5000000 ∧ 5000000 < 1024 ^ 3 ∧
      FormatBytes 5000000 = twoFrac 5000000 (1024 ^ 2) ++ " " ++ unitSuffix 2) :=
  ⟨⟨by decide, FormatBytes_spec.2.1 512 (by decide)⟩,
    ⟨by decide, by decide, by norm_num, by norm_num,
      FormatBytes_spec.2.2 5000000 2 (by decide) (by decide) (by norm_num) (by norm_num)⟩⟩

/-- C9: a CleanError renders as the path, a colon and a space, and the
underlying error message, exactly; in particular the test vector
"/test/path" with message "boom" renders as "/test/path: boom". -/
theorem cleanError_rendering :
    (∀ ce : CleanError, CleanError.error ce = ce.Path ++ ": " ++ ce.Err.msg) ∧
    CleanError.error ⟨"/test/path", .ErrorOther, ⟨false, false, "boom"⟩⟩ = "/test/path: boom" :=
  ⟨fun _ => rfl, rfl⟩

/-- C10: running the body of the in-place a.merge(b) call mutates only the
receiver: the argument b is unchanged afterwards, and the receiver holds
exactly the field-wise merge. -/
theorem merge_framesArg (a b : CleanResult) :
    (mergeExec ⟨a, b⟩).arg = b ∧
    (mergeExec ⟨a, b⟩).receiver = CleanResult.merge a b :=
  ⟨rfl, rfl⟩

end Cleaner
